import Mathlib

/-!
Verification of the BibP citation-resolution pipeline.

The Python sources (`downloader.py`, `extractor.py`, `grobid_client.py`,
`config_template.py`) are shallowly embedded below.  Python strings are
modelled as `List Char` (sequences of code points), machine floats used for
scores, rates and times as `ℚ`, and the external network (source handlers,
PDF downloads, the filesystem) as explicit oracle functions passed to the
orchestrator.
-/

set_option maxHeartbeats 1000000

namespace BibP

/-- Code points of a string literal, the working representation of Python `str`. -/
def str (s : String) : List Char := s.data

/-- Whitespace characters removed by Python's `str.strip()` (ASCII range). -/
def isPySpace (c : Char) : Bool :=
  c = ' ' || c = '\t' || c = '\n' || c = '\r' || c = '\x0b' || c = '\x0c'

/-- Python `s.strip()`: drop whitespace from both ends. -/
def pyStrip (s : List Char) : List Char :=
  ((s.dropWhile isPySpace).reverse.dropWhile isPySpace).reverse

/-- Python `s.rstrip('.')`: drop trailing dots. -/
def dropTrailingDots (s : List Char) : List Char :=
  (s.reverse.dropWhile (fun c => c = '.')).reverse

/-- ASCII lowercasing, the effect of `re.IGNORECASE` on the ASCII patterns used here. -/
def asciiLower (c : Char) : Char :=
  if 'A' ≤ c ∧ c ≤ 'Z' then Char.ofNat (c.toNat + 32) else c

/-- Does `p` occur at the start of `s`?  (Anchored `re.match` prefix test.) -/
def beginsWith (p s : List Char) : Bool := s.take p.length == p

/-- `re.sub(r'^https?://(?:dx\.)?doi\.org/', '', doi)`: strip one anchored
resolver-URL prefix. -/
def stripDoiResolver (s : List Char) : List Char :=
  if beginsWith (str "https://doi.org/") s then s.drop (str "https://doi.org/").length
  else if beginsWith (str "http://doi.org/") s then s.drop (str "http://doi.org/").length
  else if beginsWith (str "https://dx.doi.org/") s then s.drop (str "https://dx.doi.org/").length
  else if beginsWith (str "http://dx.doi.org/") s then s.drop (str "http://dx.doi.org/").length
  else s

/-- `re.match(r'^10\.\d+/', doi)`: "10." then one or more digits then "/".
The greedy digit run is equivalent to the regex because a shorter run would
have to be followed by '/', which is not a digit. -/
def matchesDoiPattern (d : List Char) : Bool :=
  match d with
  | '1' :: '0' :: '.' :: rest =>
    let ds := rest.takeWhile Char.isDigit
    decide (ds ≠ []) && ((rest.drop ds.length).head? == some '/')
  | _ => false

/-- `_clean_doi` (identical copies in `downloader.py` and `extractor.py`):
strip the resolver prefix, trim, validate against `^10\.\d+/`. -/
def clean_doi (doi : List Char) : List Char :=
  if doi = [] then []
  else
    let d := dropTrailingDots (pyStrip (stripDoiResolver doi))
    if matchesDoiPattern d then d else []

theorem clean_doi_empty_or_valid (doi : List Char) :
    clean_doi doi = [] ∨ matchesDoiPattern (clean_doi doi) = true := by
  unfold clean_doi
  split
  · exact Or.inl rfl
  · dsimp only
    split
    · exact Or.inr (by assumption)
    · exact Or.inl rfl

theorem matchesDoiPattern_not_resolver {d : List Char} (h : matchesDoiPattern d = true) :
    beginsWith (str "https://doi.org/") d = false ∧
    beginsWith (str "https://dx.doi.org/") d = false := by
  unfold matchesDoiPattern at h
  constructor
  all_goals {
    match d with
    | '1' :: '0' :: '.' :: rest => simp [beginsWith, str, List.take]
    | [] => simp at h
    | [c] => cases h' : decide (c = '1') <;> simp_all [beginsWith, str]
    | [c, c'] => simp [beginsWith, str]
    | c :: c' :: c'' :: rest =>
        simp [beginsWith, str, List.take]
        intro h1 h2 h3
        subst h1; subst h2; subst h3
        simp at h
  }

/-! ### Raw citation records and normalization (`_extract_reference_info`) -/

/-- A Python dict value as produced by the extractors: a string or a list of
strings.  An absent key is modelled by `Option.none` at the field level. -/
inductive PyVal
  | s (v : List Char)
  | l (vs : List (List Char))
deriving DecidableEq

/-- A raw citation record as handed to `ReferenceProcessor.process_reference`. -/
structure RawRef where
  title : Option PyVal := none
  author : Option PyVal := none
  journal : Option PyVal := none
  year : Option PyVal := none
  doi : Option PyVal := none
  volume : Option PyVal := none
  page : Option PyVal := none
  raw_reference : Option PyVal := none
  misc : Option PyVal := none
deriving DecidableEq

/-- `' '.join(strs)`. -/
def joinSpace : List (List Char) → List Char
  | [] => []
  | [x] => x
  | x :: y :: rest => x ++ ' ' :: joinSpace (y :: rest)

/-- One field of `_extract_reference_info`'s normalization loop:
`' '.join(str(item) for item in value if item)` for lists, else
`str(value).strip() if value else ''`. -/
def fieldToStr : Option PyVal → List Char
  | some (.s v) => if v = [] then [] else pyStrip v
  | some (.l vs) => joinSpace (vs.filter (fun x => x ≠ []))
  | none => []

/-- Python's `repr`-free `str()` of a dict value, as used when building
`misc_text` (`str(ref.get('misc', ''))`).  A list renders as its Python
`str` form `['a', 'b']`; an absent key was already replaced by `''`. -/
def pyValStr : Option PyVal → List Char
  | some (.s v) => v
  | some (.l vs) => '[' :: List.intercalate (str ", ") (vs.map (fun v => '\'' :: v ++ ['\''])) ++ [']']
  | none => []

/-- Match the tail of the arXiv id pattern `\d{4}\.\d{4,5}(?:v\d+)?` at the
head of `cs`, returning the captured group.  The greedy 4-5 digit run and the
optional version suffix need no backtracking: any shorter digit run is
followed by a digit, which neither `v` nor end-of-group accepts before `\d`. -/
def matchArxivTail (cs : List Char) : Option (List Char) :=
  let d4 := cs.take 4
  if d4.length = 4 ∧ d4.all Char.isDigit then
    match cs.drop 4 with
    | '.' :: rest =>
      let ds := (rest.takeWhile Char.isDigit).take 5
      if ds.length ≥ 4 then
        let rest2 := rest.drop ds.length
        let ver :=
          match rest2 with
          | c :: t =>
            if asciiLower c = 'v' ∧ (t.takeWhile Char.isDigit) ≠ [] then
              c :: t.takeWhile Char.isDigit
            else []
          | [] => []
        some (d4 ++ '.' :: ds ++ ver)
      else none
    | _ => none
  else none

/-- Try the whole pattern `arXiv:?(\d{4}\.\d{4,5}(?:v\d+)?)` (IGNORECASE)
anchored at the head of `cs`. -/
def matchArxivAt (cs : List Char) : Option (List Char) :=
  match cs with
  | c1 :: c2 :: c3 :: c4 :: c5 :: rest =>
    if [c1, c2, c3, c4, c5].map asciiLower = str "arxiv" then
      match rest with
      | ':' :: t => (matchArxivTail t).orElse (fun _ => matchArxivTail rest)
      | _ => matchArxivTail rest
    else none
  | _ => none

/-- `re.search`: scan left to right for the first position where the arXiv
pattern matches; return the captured group. -/
def findArxivId : List Char → Option (List Char)
  | [] => none
  | c :: rest =>
    match matchArxivAt (c :: rest) with
    | some g => some g
    | none => findArxivId rest

/-- The normalized citation info handed to the source handlers. -/
structure RefInfo where
  title : List Char := []
  author : List Char := []
  journal : List Char := []
  year : List Char := []
  doi : List Char := []
  volume : List Char := []
  page : List Char := []
  raw_reference : List Char := []
  arxiv_id : List Char := []
deriving DecidableEq

/-- `ReferenceProcessor._extract_reference_info`. -/
def extract_reference_info (ref : RawRef) : RefInfo :=
  let misc_text := pyValStr ref.misc ++ ' ' :: pyValStr ref.raw_reference
  { title := fieldToStr ref.title
    author := fieldToStr ref.author
    journal := fieldToStr ref.journal
    year := fieldToStr ref.year
    doi := clean_doi (fieldToStr ref.doi)
    volume := fieldToStr ref.volume
    page := fieldToStr ref.page
    raw_reference := fieldToStr ref.raw_reference
    arxiv_id := (findArxivId misc_text).getD [] }

/-! ### Decimal rendering for f-string fields (`{index}`, `{index:03d}`) -/

def digitChar (n : ℕ) : Char := Char.ofNat (48 + n)

/-- Fuel-driven decimal digits, most significant first (fuel ≥ n suffices). -/
def natDigitsAux : ℕ → ℕ → List Char
  | 0, _ => []
  | fuel + 1, n =>
    if n < 10 then [digitChar n]
    else natDigitsAux fuel (n / 10) ++ [digitChar (n % 10)]

/-- Decimal rendering of a natural number, as Python's `str(n)` / `f"{n}"`. -/
def natDigits (n : ℕ) : List Char :=
  if n = 0 then ['0'] else natDigitsAux n n

/-- Python `f"{n:03d}"`: left-pad the decimal rendering with zeros to width 3. -/
def pad3 (n : ℕ) : List Char :=
  List.replicate (3 - (natDigits n).length) '0' ++ natDigits n

theorem natDigitsAux_succ (fuel n : ℕ) :
    natDigitsAux (fuel + 1) n =
      if n < 10 then [digitChar n]
      else natDigitsAux fuel (n / 10) ++ [digitChar (n % 10)] := rfl

theorem natDigitsAux_fuel {n : ℕ} (hn : 1 ≤ n) :
    ∀ (f g : ℕ), n ≤ f → n ≤ g → natDigitsAux f n = natDigitsAux g n := by
  induction n using Nat.strong_induction_on with
  | _ n ih =>
    intro f g hf hg
    obtain ⟨f', rfl⟩ : ∃ f', f = f' + 1 := ⟨f - 1, by omega⟩
    obtain ⟨g', rfl⟩ : ∃ g', g = g' + 1 := ⟨g - 1, by omega⟩
    by_cases h10 : n < 10
    · rw [natDigitsAux_succ, natDigitsAux_succ, if_pos h10, if_pos h10]
    · rw [natDigitsAux_succ, natDigitsAux_succ, if_neg h10, if_neg h10]
      have hd : n / 10 < n := Nat.div_lt_self (by omega) (by omega)
      have h1 : 1 ≤ n / 10 := Nat.one_le_div_iff (by omega) |>.mpr (by omega)
      rw [ih (n / 10) hd h1 f' g' (by omega) (by omega)]

theorem natDigits_eq_of_lt {n : ℕ} (h1 : 1 ≤ n) (h10 : n < 10) :
    natDigits n = [digitChar n] := by
  have hne : n ≠ 0 := by omega
  obtain ⟨m, rfl⟩ : ∃ m, n = m + 1 := ⟨n - 1, by omega⟩
  rw [natDigits, if_neg hne, natDigitsAux_succ, if_pos h10]

theorem natDigits_eq_of_ge {n : ℕ} (h10 : 10 ≤ n) :
    natDigits n = natDigits (n / 10) ++ [digitChar (n % 10)] := by
  have hn0 : n ≠ 0 := by omega
  have hd1 : 1 ≤ n / 10 := Nat.one_le_div_iff (by omega) |>.mpr (by omega)
  have hd0 : n / 10 ≠ 0 := by omega
  obtain ⟨m, rfl⟩ : ∃ m, n = m + 1 := ⟨n - 1, by omega⟩
  rw [natDigits, if_neg hn0, natDigitsAux_succ, if_neg (Nat.not_lt.mpr h10),
    natDigits, if_neg hd0]
  congr 1
  exact natDigitsAux_fuel hd1 m ((m + 1) / 10) (by omega) (by omega)

/-- The value read back from a digit list by positional base-10 evaluation. -/
def digitsVal (l : List Char) : ℕ := l.foldl (fun a c => 10 * a + (c.toNat - 48)) 0

theorem digitsVal_append_singleton (l : List Char) (c : Char) :
    digitsVal (l ++ [c]) = 10 * digitsVal l + (c.toNat - 48) := by
  simp [digitsVal, List.foldl_append]

theorem digitChar_toNat {n : ℕ} (h : n < 10) : (digitChar n).toNat = 48 + n := by
  interval_cases n <;> decide

theorem digitsVal_natDigits (n : ℕ) : digitsVal (natDigits n) = n := by
  induction n using Nat.strong_induction_on with
  | _ n ih =>
    rcases Nat.lt_or_ge n 10 with h10 | h10
    · rcases Nat.eq_zero_or_pos n with h0 | h1
      · subst h0; decide
      · rw [natDigits_eq_of_lt h1 h10]
        simp [digitsVal, digitChar_toNat h10]
    · rw [natDigits_eq_of_ge h10, digitsVal_append_singleton,
        ih (n / 10) (Nat.div_lt_self (by omega) (by omega)),
        digitChar_toNat (Nat.mod_lt n (by omega))]
      omega

theorem natDigits_injective {m n : ℕ} (h : natDigits m = natDigits n) : m = n := by
  have := congrArg digitsVal h
  rwa [digitsVal_natDigits, digitsVal_natDigits] at this

theorem digitsVal_replicate_zero_append (k : ℕ) (l : List Char) :
    digitsVal (List.replicate k '0' ++ l) = digitsVal l := by
  induction k with
  | zero => rfl
  | succ k ih =>
    have : List.replicate (k + 1) '0' ++ l = '0' :: (List.replicate k '0' ++ l) := by
      simp [List.replicate_succ]
    rw [this]
    simpa [digitsVal] using ih

theorem digitsVal_pad3 (n : ℕ) : digitsVal (pad3 n) = n := by
  rw [pad3, digitsVal_replicate_zero_append, digitsVal_natDigits]

theorem pad3_injective {m n : ℕ} (h : pad3 m = pad3 n) : m = n := by
  have := congrArg digitsVal h
  rwa [digitsVal_pad3, digitsVal_pad3] at this

theorem digitChar_isDigit {n : ℕ} (h : n < 10) : (digitChar n).isDigit = true := by
  interval_cases n <;> decide

theorem natDigits_all_digit (n : ℕ) : ∀ c ∈ natDigits n, c.isDigit = true := by
  induction n using Nat.strong_induction_on with
  | _ n ih =>
    rcases Nat.lt_or_ge n 10 with h10 | h10
    · rcases Nat.eq_zero_or_pos n with h0 | h1
      · subst h0; decide
      · rw [natDigits_eq_of_lt h1 h10]
        intro c hc
        have : c = digitChar n := by simpa using hc
        subst this
        exact digitChar_isDigit h10
    · rw [natDigits_eq_of_ge h10]
      intro c hc
      rcases List.mem_append.mp hc with hc | hc
      · exact ih (n / 10) (Nat.div_lt_self (by omega) (by omega)) c hc
      · have : c = digitChar (n % 10) := by simpa using hc
        subst this
        exact digitChar_isDigit (Nat.mod_lt n (by omega))

theorem pad3_all_digit (n : ℕ) : ∀ c ∈ pad3 n, c.isDigit = true := by
  intro c hc
  rcases List.mem_append.mp hc with hc | hc
  · have : c = '0' := List.eq_of_mem_replicate hc
    subst this; decide
  · exact natDigits_all_digit n c hc

theorem natDigits_ne_nil (n : ℕ) : natDigits n ≠ [] := by
  rcases Nat.lt_or_ge n 10 with h10 | h10
  · rcases Nat.eq_zero_or_pos n with h0 | h1
    · subst h0; decide
    · rw [natDigits_eq_of_lt h1 h10]; simp
  · rw [natDigits_eq_of_ge h10]; simp

theorem natDigits_length_le_three {n : ℕ} (h : n ≤ 999) :
    (natDigits n).length ≤ 3 := by
  rcases Nat.lt_or_ge n 10 with h10 | h10
  · rcases Nat.eq_zero_or_pos n with h0 | h1
    · subst h0; decide
    · rw [natDigits_eq_of_lt h1 h10]; simp
  · rw [natDigits_eq_of_ge h10]
    rcases Nat.lt_or_ge (n / 10) 10 with h10' | h10'
    · have h1' : 1 ≤ n / 10 := Nat.one_le_div_iff (by omega) |>.mpr (by omega)
      rw [natDigits_eq_of_lt h1' h10']
      simp
    · rw [natDigits_eq_of_ge h10']
      have h1'' : n / 10 / 10 < 10 := by omega
      have h1''' : 1 ≤ n / 10 / 10 := by omega
      rw [natDigits_eq_of_lt h1''' h1'']
      simp

theorem pad3_length_of_le {n : ℕ} (h : n ≤ 999) : (pad3 n).length = 3 := by
  have h3 := natDigits_length_le_three h
  have h0 : 1 ≤ (natDigits n).length := by
    have := natDigits_ne_nil n
    cases hE : natDigits n with
    | nil => exact absurd hE this
    | cons a l => simp
  simp [pad3]
  omega

/-! ### SHA-256 (`hashlib.sha256(...).hexdigest()`) -/

/-- UTF-8 bytes of one code point (`str.encode()`). -/
def utf8Char (c : Char) : List ℕ :=
  let n := c.toNat
  if n < 0x80 then [n]
  else if n < 0x800 then [0xC0 + n / 64, 0x80 + n % 64]
  else if n < 0x10000 then [0xE0 + n / 4096, 0x80 + n / 64 % 64, 0x80 + n % 64]
  else [0xF0 + n / 262144, 0x80 + n / 4096 % 64, 0x80 + n / 64 % 64, 0x80 + n % 64]

/-- `str.encode()`: UTF-8 bytes of a string. -/
def utf8Encode (s : List Char) : List ℕ := s.flatMap utf8Char

/-- 32-bit modulus. -/
def M32 : ℕ := 4294967296

/-- Right rotation of a 32-bit word, expressed arithmetically. -/
def rotr (x n : ℕ) : ℕ := x / 2 ^ n + x % 2 ^ n * 2 ^ (32 - n)

/-- Bitwise complement of a 32-bit word. -/
def not32 (x : ℕ) : ℕ := (M32 - 1) - x % M32

def shaCh (e f g : ℕ) : ℕ := (e &&& f) ^^^ (not32 e &&& g)

def shaMaj (a b c : ℕ) : ℕ := (a &&& b) ^^^ (a &&& c) ^^^ (b &&& c)

def bigSigma0 (a : ℕ) : ℕ := rotr a 2 ^^^ rotr a 13 ^^^ rotr a 22

def bigSigma1 (e : ℕ) : ℕ := rotr e 6 ^^^ rotr e 11 ^^^ rotr e 25

def smallSigma0 (w : ℕ) : ℕ := rotr w 7 ^^^ rotr w 18 ^^^ w / 2 ^ 3

def smallSigma1 (w : ℕ) : ℕ := rotr w 17 ^^^ rotr w 19 ^^^ w / 2 ^ 10

/-- The 64 SHA-256 round constants. -/
def shaK : List ℕ :=
  [1116352408, 1899447441, 3049323471, 3921009573,
   961987163, 1508970993, 2453635748, 2870763221,
   3624381080, 310598401, 607225278, 1426881987,
   1925078388, 2162078206, 2614888103, 3248222580,
   3835390401, 4022224774, 264347078, 604807628,
   770255983, 1249150122, 1555081692, 1996064986,
   2554220882, 2821834349, 2952996808, 3210313671,
   3336571891, 3584528711, 113926993, 338241895,
   666307205, 773529912, 1294757372, 1396182291,
   1695183700, 1986661051, 2177026350, 2456956037,
   2730485921, 2820302411, 3259730800, 3345764771,
   3516065817, 3600352804, 4094571909, 275423344,
   430227734, 506948616, 659060556, 883997877,
   958139571, 1322822218, 1537002063, 1747873779,
   1955562222, 2024104815, 2227730452, 2361852424,
   2428436474, 2756734187, 3204031479, 3329325298]

/-- The eight working variables of the compression function. -/
structure SHAState where
  a : ℕ
  b : ℕ
  c : ℕ
  d : ℕ
  e : ℕ
  f : ℕ
  g : ℕ
  h : ℕ
deriving DecidableEq

/-- SHA-256 initial hash value. -/
def shaH0 : SHAState :=
  ⟨1779033703, 3144134277, 1013904242, 2773480762,
   1359893119, 2600822924, 528734635, 1541459225⟩

/-- One compression round. -/
def shaRound (s : SHAState) (kw : ℕ × ℕ) : SHAState :=
  let t1 := (s.h + bigSigma1 s.e + shaCh s.e s.f s.g + kw.1 + kw.2) % M32
  let t2 := (bigSigma0 s.a + shaMaj s.a s.b s.c) % M32
  ⟨(t1 + t2) % M32, s.a, s.b, s.c, (s.d + t1) % M32, s.e, s.f, s.g⟩

/-- Extend a partial message schedule by one word. -/
def scheduleStep (w : List ℕ) : List ℕ :=
  let i := w.length
  w ++ [(smallSigma1 (w.getD (i - 2) 0) + w.getD (i - 7) 0 +
         smallSigma0 (w.getD (i - 15) 0) + w.getD (i - 16) 0) % M32]

/-- Build the 64-word message schedule from the 16 block words. -/
def buildSchedule (w16 : List ℕ) : List ℕ :=
  (List.range 48).foldl (fun w _ => scheduleStep w) w16

/-- Big-endian 32-bit words from a list of bytes. -/
def bytesToWords : List ℕ → List ℕ
  | b1 :: b2 :: b3 :: b4 :: rest =>
    (b1 * 16777216 + b2 * 65536 + b3 * 256 + b4) :: bytesToWords rest
  | _ => []

/-- Compress one 64-byte block into the running hash value. -/
def compressBlock (s : SHAState) (block : List ℕ) : SHAState :=
  let w := buildSchedule (bytesToWords block)
  let t := (shaK.zip w).foldl shaRound s
  ⟨(s.a + t.a) % M32, (s.b + t.b) % M32, (s.c + t.c) % M32, (s.d + t.d) % M32,
   (s.e + t.e) % M32, (s.f + t.f) % M32, (s.g + t.g) % M32, (s.h + t.h) % M32⟩

/-- The message bit length as 8 big-endian bytes. -/
def lenBytes (n : ℕ) : List ℕ :=
  [n / 2 ^ 56 % 256, n / 2 ^ 48 % 256, n / 2 ^ 40 % 256, n / 2 ^ 32 % 256,
   n / 2 ^ 24 % 256, n / 2 ^ 16 % 256, n / 2 ^ 8 % 256, n % 256]

/-- SHA-256 padding: `0x80`, zeros to 56 mod 64, then the 64-bit bit length. -/
def padMessage (msg : List ℕ) : List ℕ :=
  msg ++ 128 :: List.replicate ((119 - msg.length % 64) % 64) 0 ++ lenBytes (8 * msg.length)

/-- Split a byte list into 64-byte blocks. -/
def splitBlocks : List ℕ → List (List ℕ)
  | [] => []
  | c :: rest => ((c :: rest).take 64) :: splitBlocks ((c :: rest).drop 64)
termination_by l => l.length
decreasing_by simp [List.length_drop]; omega

/-- The SHA-256 hash value of a byte string, as eight 32-bit words. -/
def sha256Words (msg : List ℕ) : SHAState :=
  (splitBlocks (padMessage msg)).foldl compressBlock shaH0

/-- Big-endian bytes of one 32-bit word. -/
def wordBytes (w : ℕ) : List ℕ := [w / 16777216 % 256, w / 65536 % 256, w / 256 % 256, w % 256]

def stateWords (s : SHAState) : List ℕ := [s.a, s.b, s.c, s.d, s.e, s.f, s.g, s.h]

def bytesOfWords (ws : List ℕ) : List ℕ := ws.foldr (fun w acc => wordBytes w ++ acc) []

/-- Lowercase hexadecimal digit for `n < 16`. -/
def hexChar (n : ℕ) : Char :=
  if n < 10 then Char.ofNat (48 + n) else Char.ofNat (87 + n)

def hexOfBytes (bs : List ℕ) : List Char :=
  bs.foldr (fun b acc => hexChar (b / 16) :: hexChar (b % 16) :: acc) []

/-- `hashlib.sha256(msg).hexdigest()`. -/
def sha256Hex (msg : List ℕ) : List Char :=
  hexOfBytes (bytesOfWords (stateWords (sha256Words msg)))

theorem bytesOfWords_length (ws : List ℕ) : (bytesOfWords ws).length = 4 * ws.length := by
  induction ws with
  | nil => rfl
  | cons w ws ih => simp [bytesOfWords, wordBytes, List.foldr] at ih ⊢; omega

theorem hexOfBytes_length (bs : List ℕ) : (hexOfBytes bs).length = 2 * bs.length := by
  induction bs with
  | nil => rfl
  | cons b bs ih => simp [hexOfBytes, List.foldr] at ih ⊢; omega

theorem sha256Hex_length (msg : List ℕ) : (sha256Hex msg).length = 64 := by
  rw [sha256Hex, hexOfBytes_length, bytesOfWords_length]
  rfl

/-- Characters allowed in a lowercase hexadecimal rendering. -/
def isHexChar (c : Char) : Bool := (str "0123456789abcdef").contains c

theorem hexChar_isHexChar {n : ℕ} (h : n < 16) : isHexChar (hexChar n) = true := by
  interval_cases n <;> decide

theorem hexOfBytes_all_hex (bs : List ℕ) (hb : ∀ b ∈ bs, b < 256) :
    ∀ c ∈ hexOfBytes bs, isHexChar c = true := by
  induction bs with
  | nil => intro c hc; simp [hexOfBytes] at hc
  | cons b bs ih =>
    intro c hc
    have hb0 : b < 256 := hb b (List.mem_cons_self b bs)
    rcases hc with _ | ⟨_, hc⟩
    · exact hexChar_isHexChar (by omega)
    · rcases hc with _ | ⟨_, hc⟩
      · exact hexChar_isHexChar (Nat.mod_lt b (by omega))
      · exact ih (fun x hx => hb x (List.mem_cons_of_mem b hx)) c hc

theorem bytesOfWords_lt (ws : List ℕ) : ∀ b ∈ bytesOfWords ws, b < 256 := by
  induction ws with
  | nil => intro b hb; simp [bytesOfWords] at hb
  | cons w ws ih =>
    intro b hb
    rw [bytesOfWords] at hb
    simp only [List.foldr_cons, List.mem_append] at hb
    rcases hb with hb | hb
    · rcases hb with _ | ⟨_, hb⟩
      · exact Nat.mod_lt _ (by omega)
      · rcases hb with _ | ⟨_, hb⟩
        · exact Nat.mod_lt _ (by omega)
        · rcases hb with _ | ⟨_, hb⟩
          · exact Nat.mod_lt _ (by omega)
          · have hbe : b = w % 256 := List.mem_singleton.mp hb
            subst hbe
            exact Nat.mod_lt _ (by omega)
    · exact ih b hb

theorem sha256Hex_all_hex (msg : List ℕ) : ∀ c ∈ sha256Hex msg, isHexChar c = true :=
  hexOfBytes_all_hex _ (bytesOfWords_lt _)

/-! ### `ReferenceProcessor._generate_filename` -/

/-- Characters removed by `re.sub(r'[<>:"/\\|?*\x00-\x1F]', '', title)`. -/
def badFilenameChar (c : Char) : Bool :=
  c = '<' || c = '>' || c = ':' || c = '"' || c = '/' || c = '\\' ||
  c = '|' || c = '?' || c = '*' || decide (c.toNat < 32)

/-- `re.sub(r'\s+', '_', s)`: replace each maximal whitespace run with one
underscore.  The flag records whether the previous character was whitespace. -/
def collapseWsAux : Bool → List Char → List Char
  | _, [] => []
  | prev, c :: cs =>
    if isPySpace c then
      (if prev then [] else ['_']) ++ collapseWsAux true cs
    else c :: collapseWsAux false cs

def collapseWs (s : List Char) : List Char := collapseWsAux false s

/-- The 8-hex-character content hash over `title|doi|arxiv_id|index`. -/
def fileHash (info : RefInfo) (index : ℕ) : List Char :=
  (sha256Hex (utf8Encode
    (info.title ++ '|' :: info.doi ++ '|' :: info.arxiv_id ++ '|' :: natDigits index))).take 8

theorem fileHash_length (info : RefInfo) (index : ℕ) : (fileHash info index).length = 8 := by
  rw [fileHash, List.length_take, sha256Hex_length]
  decide

theorem fileHash_all_hex (info : RefInfo) (index : ℕ) :
    ∀ c ∈ fileHash info index, isHexChar c = true := by
  intro c hc
  exact sha256Hex_all_hex _ c (List.take_subset 8 _ hc)

/-- The f-string template `f"ref_{index:03d}_{clean_title}_{file_hash}.pdf"`. -/
def composeFilename (index : ℕ) (t fh : List Char) : List Char :=
  str "ref_" ++ pad3 index ++ '_' :: t ++ '_' :: fh ++ str ".pdf"

theorem composeFilename_length (i : ℕ) (t fh : List Char) :
    (composeFilename i t fh).length = 10 + (pad3 i).length + t.length + fh.length := by
  have h1 : (str "ref_").length = 4 := rfl
  have h2 : (str ".pdf").length = 4 := rfl
  simp [composeFilename, List.length_append, h1, h2]
  omega

/-- The length check and title re-truncation at the end of
`_generate_filename`.  `max_title_len` uses truncated natural subtraction:
Python's value can be negative there, but it is only used inside
`max(10, ·)`, where both flavors agree. -/
def fitFilename (maxLen index : ℕ) (clean_title file_hash : List Char) : List Char :=
  let filename := composeFilename index clean_title file_hash
  if filename.length > maxLen then
    let max_title_len :=
      maxLen - (str "ref_" ++ pad3 index ++ str "___" ++ file_hash ++ str ".pdf").length
    composeFilename index (clean_title.take (max 10 max_title_len)) file_hash
  else filename

/-- `ReferenceProcessor._generate_filename`. -/
def generate_filename (maxLen : ℕ) (info : RefInfo) (index : ℕ) : List Char :=
  let title := if info.title ≠ [] then info.title else info.raw_reference
  let clean_title :=
    if title ≠ [] then
      (collapseWs (pyStrip (title.filter (fun c => !badFilenameChar c)))).take 60
    else str "reference_" ++ natDigits index
  fitFilename maxLen index clean_title (fileHash info index)

theorem fitFilename_shape (maxLen i : ℕ) (ct fh : List Char) :
    ∃ t, fitFilename maxLen i ct fh = composeFilename i t fh := by
  unfold fitFilename
  dsimp only
  split
  · exact ⟨_, rfl⟩
  · exact ⟨_, rfl⟩

theorem generate_filename_shape (maxLen : ℕ) (info : RefInfo) (i : ℕ) :
    ∃ t, generate_filename maxLen info i = composeFilename i t (fileHash info i) :=
  fitFilename_shape maxLen i _ _

theorem fitFilename_length {maxLen i : ℕ} (h999 : i ≤ 999) (ct : List Char)
    {fh : List Char} (hfh : fh.length = 8) :
    (fitFilename maxLen i ct fh).length ≤ max maxLen 31 := by
  have htempl : (str "ref_" ++ pad3 i ++ str "___" ++ fh ++ str ".pdf").length = 22 := by
    have h1 : (str "ref_").length = 4 := rfl
    have h2 : (str ".pdf").length = 4 := rfl
    have h3 : (str "___").length = 3 := rfl
    simp [List.length_append, h1, h2, h3, pad3_length_of_le h999, hfh]
  unfold fitFilename
  dsimp only
  split
  · rw [composeFilename_length, pad3_length_of_le h999, hfh, htempl, List.length_take]
    omega
  · next h =>
    have hle := Nat.not_lt.mp (by simpa using h)
    exact le_trans hle (Nat.le_max_left maxLen 31)

theorem generate_filename_length {maxLen : ℕ} (info : RefInfo) {i : ℕ} (h999 : i ≤ 999) :
    (generate_filename maxLen info i).length ≤ max maxLen 31 :=
  fitFilename_length h999 _ (fileHash_length info i)

/-! ### Configuration (`config_template.py`) -/

/-- `APIConfig`. -/
structure APIConfig where
  enabled : Bool := true
  rate_limit : ℚ := 1
  timeout : ℕ := 15
  retries : ℕ := 3
  priority : ℕ := 5
deriving DecidableEq

/-- The default `BibPConfig.apis` table. -/
def defaultApis : List (List Char × APIConfig) :=
  [(str "arxiv", { rate_limit := 10, priority := 1 }),
   (str "unpaywall", { rate_limit := 5, priority := 2 }),
   (str "openalex", { rate_limit := 10, priority := 3 }),
   (str "semantic_scholar", { rate_limit := 4/5, priority := 4 }),
   (str "crossref", { rate_limit := 2, priority := 5 }),
   (str "pubmed", { rate_limit := 3, priority := 6 }),
   (str "core", { enabled := false, rate_limit := 1, priority := 7 })]

/-- Stable insertion into a priority-sorted list: an element moves in front
only of strictly larger priorities, matching the stability of Python's
`sorted`. -/
def insertApi (x : List Char × APIConfig) :
    List (List Char × APIConfig) → List (List Char × APIConfig)
  | [] => [x]
  | y :: ys => if x.2.priority < y.2.priority then x :: y :: ys else y :: insertApi x ys

/-- Stable sort by priority, the effect of
`sorted(enabled.items(), key=lambda x: x[1].priority)`. -/
def sortByPriority : List (List Char × APIConfig) → List (List Char × APIConfig)
  | [] => []
  | x :: xs => insertApi x (sortByPriority xs)

/-- `BibPConfig.get_enabled_apis`: enabled APIs sorted by priority. -/
def get_enabled_apis (apis : List (List Char × APIConfig)) :
    List (List Char × APIConfig) :=
  sortByPriority (apis.filter (fun p => p.2.enabled))

theorem insertApi_perm (x : List Char × APIConfig)
    (l : List (List Char × APIConfig)) : List.Perm (insertApi x l) (x :: l) := by
  induction l with
  | nil => rfl
  | cons y ys ih =>
    rw [insertApi]
    split
    · rfl
    · exact (List.Perm.cons y ih).trans (List.Perm.swap x y ys)

theorem sortByPriority_perm (l : List (List Char × APIConfig)) :
    List.Perm (sortByPriority l) l := by
  induction l with
  | nil => rfl
  | cons x xs ih => exact (insertApi_perm x (sortByPriority xs)).trans (List.Perm.cons x ih)

theorem insertApi_pairwise_le {x : List Char × APIConfig}
    {l : List (List Char × APIConfig)}
    (hl : l.Pairwise (fun a b => a.2.priority ≤ b.2.priority)) :
    (insertApi x l).Pairwise (fun a b => a.2.priority ≤ b.2.priority) := by
  induction l with
  | nil => simp [insertApi]
  | cons y ys ih =>
    rw [insertApi]
    rcases List.pairwise_cons.mp hl with ⟨hy, hys⟩
    split
    · next hlt =>
      refine List.pairwise_cons.mpr ⟨?_, hl⟩
      intro z hz
      rcases hz with _ | ⟨_, hz⟩
      · omega
      · exact le_trans (by omega) (hy z hz)
    · next hge =>
      refine List.pairwise_cons.mpr ⟨?_, ih hys⟩
      intro z hz
      have hz' := (insertApi_perm x ys).mem_iff.mp hz
      rcases List.mem_cons.mp hz' with hz' | hz'
      · subst hz'; omega
      · exact hy z hz'

theorem sortByPriority_pairwise_le (l : List (List Char × APIConfig)) :
    (sortByPriority l).Pairwise (fun a b => a.2.priority ≤ b.2.priority) := by
  induction l with
  | nil => simp [sortByPriority]
  | cons x xs ih => exact insertApi_pairwise_le ih

/-- If the enabled APIs carry pairwise-distinct priorities, the list
returned by `get_enabled_apis` is strictly ascending in priority. -/
theorem get_enabled_apis_strict_ascending
    {apis : List (List Char × APIConfig)}
    (hdist : (apis.filter (fun p => p.2.enabled)).Pairwise
      (fun a b => a.2.priority ≠ b.2.priority)) :
    (get_enabled_apis apis).Pairwise (fun a b => a.2.priority < b.2.priority) := by
  have hperm := sortByPriority_perm (apis.filter (fun p => p.2.enabled))
  have hne : (get_enabled_apis apis).Pairwise (fun a b => a.2.priority ≠ b.2.priority) := by
    refine (List.Perm.pairwise_iff ?_ hperm).mpr hdist
    intro a b h
    omega
  have hle := sortByPriority_pairwise_le (apis.filter (fun p => p.2.enabled))
  have := hle.and hne
  exact this.imp (fun h => by omega)

/-! ### The download orchestrator (`ReferenceProcessor.process_reference`)

The source handlers perform network I/O, so they enter the model as an
oracle `handler : name → RefInfo → SourceResult`; likewise `_download_pdf`
(`download url = none` means the transfer succeeded and passed validation,
`some e` is the exception text) and the filesystem existence check. -/

/-- `SourceResult`. -/
structure SourceResult where
  source_name : List Char
  success : Bool
  url : Option (List Char) := none
  metadata : Option (List (List Char × List Char)) := none
  error : Option (List Char) := none
  response_time : ℚ := 0
deriving DecidableEq

/-- `ReferenceResult`. -/
structure ReferenceResult where
  filename : List Char
  status : List Char
  source : Option (List Char) := none
  url : Option (List Char) := none
  error : Option (List Char) := none
  sources_tried : List SourceResult := []
  reference_info : RefInfo
deriving DecidableEq

/-- Python truthiness of an optional string (`None` and `''` are falsy). -/
def truthy : Option (List Char) → Bool
  | none => false
  | some s => decide (s ≠ [])

/-- The names registered in `ReferenceProcessor.source_handlers`. -/
def handlerNames : List (List Char) :=
  [str "arxiv", str "unpaywall", str "openalex", str "semantic_scholar",
   str "crossref", str "pubmed", str "core"]

/-- The loop body of `process_reference`: consult each handler in turn,
record its attempt, and on `success and url` try the download; a download
exception marks the recorded attempt failed and moves on.  Returns the
recorded attempts and, on success, the winning `(api_name, url)`. -/
def trySources (handler : List Char → SourceResult)
    (download : List Char → Option (List Char)) :
    List (List Char) → List SourceResult × Option (List Char × List Char)
  | [] => ([], none)
  | api :: rest =>
    let sr := handler api
    if sr.success && truthy sr.url then
      match sr.url with
      | some u =>
        match download u with
        | none => ([sr], some (api, u))
        | some e =>
          let next := trySources handler download rest
          ({ sr with success := false, error := some e } :: next.1, next.2)
      | none =>
        let next := trySources handler download rest
        (sr :: next.1, next.2)
    else
      let next := trySources handler download rest
      (sr :: next.1, next.2)

/-- `ReferenceProcessor.process_reference`.  `enabled` is the key list of
`config.get_enabled_apis()`; only names present in `source_handlers` are
consulted. -/
def process_reference (enabled : List (List Char)) (maxLen : ℕ)
    (handler : List Char → RefInfo → SourceResult)
    (download : List Char → Option (List Char))
    (existsFile : List Char → Bool)
    (ref : RawRef) (index : ℕ) : ReferenceResult :=
  let info := extract_reference_info ref
  let filename := generate_filename maxLen info index
  if existsFile filename then
    { filename := filename, status := str "exists", reference_info := info }
  else
    let apis := enabled.filter (fun a => handlerNames.contains a)
    match trySources (fun api => handler api info) download apis with
    | (tried, some (api, u)) =>
      { filename := filename, status := str "success", source := some api,
        url := some u, sources_tried := tried, reference_info := info }
    | (tried, none) =>
      { filename := filename, status := str "failed",
        error := some (str "No open access source found"),
        sources_tried := tried, reference_info := info }

/-- The attempt as it ends up in `sources_tried` after the download stage
possibly marks it failed. -/
def recordedAttempt (handler : List Char → SourceResult)
    (download : List Char → Option (List Char)) (api : List Char) : SourceResult :=
  let sr := handler api
  if sr.success && truthy sr.url then
    match sr.url with
    | some u =>
      match download u with
      | none => sr
      | some e => { sr with success := false, error := some e }
    | none => sr
  else sr

/-- A consulted handler "resolves" when it reports success with a truthy URL
and the download of that URL succeeds and validates. -/
def resolves (handler : List Char → SourceResult)
    (download : List Char → Option (List Char)) (api : List Char) : Prop :=
  ∃ u, (handler api).url = some u ∧ u ≠ [] ∧ (handler api).success = true ∧
    download u = none

instance (handler : List Char → SourceResult)
    (download : List Char → Option (List Char)) (api : List Char) :
    Decidable (resolves handler download api) := by
  unfold resolves
  cases hu : (handler api).url with
  | none => exact .isFalse (by simp [hu])
  | some u =>
    refine decidable_of_iff (u ≠ [] ∧ (handler api).success = true ∧ download u = none) ?_
    constructor
    · rintro ⟨h1, h2, h3⟩; exact ⟨u, rfl, h1, h2, h3⟩
    · rintro ⟨v, hv, h1, h2, h3⟩
      cases hv
      exact ⟨h1, h2, h3⟩

/-- One step of the loop, split on whether the consulted handler resolves. -/
theorem trySources_cons (handler : List Char → SourceResult)
    (download : List Char → Option (List Char)) (a : List Char)
    (rest : List (List Char)) :
    trySources handler download (a :: rest) =
      if resolves handler download a
      then ([handler a], some (a, ((handler a).url).getD []))
      else (recordedAttempt handler download a :: (trySources handler download rest).1,
            (trySources handler download rest).2) := by
  rw [trySources, recordedAttempt]
  dsimp only
  cases hsuc : (handler a).success with
  | false =>
    have hres : ¬ resolves handler download a := by
      rintro ⟨u, hu, hne, hsu, hdl⟩
      rw [hsuc] at hsu
      exact Bool.false_ne_true hsu
    rw [if_neg hres]
    simp [hsuc]
  | true =>
    cases hu : (handler a).url with
    | none =>
      have hres : ¬ resolves handler download a := by
        rintro ⟨u, hu', hne, hsu, hdl⟩
        rw [hu] at hu'
        exact Option.noConfusion hu'
      rw [if_neg hres]
      simp [hsuc, hu, truthy]
    | some u =>
      by_cases hne : u = []
      · have hres : ¬ resolves handler download a := by
          rintro ⟨v, hv, hvne, hsu, hdl⟩
          rw [hu] at hv
          cases hv
          exact hvne hne
        rw [if_neg hres]
        subst hne
        simp [hsuc, hu, truthy]
      · cases hdl : download u with
        | none =>
          have hres : resolves handler download a := ⟨u, hu, hne, hsuc, hdl⟩
          rw [if_pos hres]
          simp [hsuc, hu, truthy, hne, hdl]
        | some e =>
          have hres : ¬ resolves handler download a := by
            rintro ⟨v, hv, hvne, hsu, hdv⟩
            rw [hu] at hv
            cases hv
            rw [hdl] at hdv
            exact Option.noConfusion hdv
          rw [if_neg hres]
          simp [hsuc, hu, truthy, hne, hdl]

theorem trySources_first_success (handler : List Char → SourceResult)
    (download : List Char → Option (List Char)) :
    ∀ (apis : List (List Char)) (k : ℕ) (hk : k < apis.length),
      (∀ j (hj : j < k), ¬ resolves handler download (apis.get ⟨j, lt_trans hj hk⟩)) →
      resolves handler download (apis.get ⟨k, hk⟩) →
      trySources handler download apis =
        ((apis.take k).map (recordedAttempt handler download) ++
          [handler (apis.get ⟨k, hk⟩)],
         some (apis.get ⟨k, hk⟩, ((handler (apis.get ⟨k, hk⟩)).url).getD [])) := by
  intro apis
  induction apis with
  | nil => intro k hk; simp at hk
  | cons a rest ih =>
    intro k hk hfail hsucc
    cases k with
    | zero =>
      rw [trySources_cons, if_pos (by simpa using hsucc)]
      simp
    | succ k' =>
      have hnr : ¬ resolves handler download a := by
        have := hfail 0 (by omega)
        simpa using this
      have hrest := ih k' (by simpa using hk)
        (fun j hj => by
          have := hfail (j + 1) (by omega)
          simpa using this)
        (by simpa using hsucc)
      rw [trySources_cons, if_neg hnr, hrest]
      simp

theorem trySources_none (handler : List Char → SourceResult)
    (download : List Char → Option (List Char)) :
    ∀ (apis : List (List Char)),
      (∀ api ∈ apis, ¬ resolves handler download api) →
      trySources handler download apis =
        (apis.map (recordedAttempt handler download), none) := by
  intro apis
  induction apis with
  | nil => intro; rfl
  | cons a rest ih =>
    intro hfail
    rw [trySources_cons, if_neg (hfail a (List.mem_cons_self a rest)),
      ih (fun x hx => hfail x (List.mem_cons_of_mem a hx))]
    simp

/-! ### `RateLimiter` (token bucket)

Wall-clock instants are passed explicitly; `acquire` returns the new state
and the time slept (0 when no blocking occurred). -/

structure RateLimiter where
  rate : ℚ
  burst_size : ℕ
  tokens : ℚ
  last_refill : ℚ
deriving DecidableEq

/-- `RateLimiter.__init__` at creation instant `t0`. -/
def RateLimiter.init (callsPerSecond : ℚ) (burstSize : ℕ) (t0 : ℚ) : RateLimiter :=
  { rate := callsPerSecond, burst_size := burstSize, tokens := burstSize, last_refill := t0 }

/-- `RateLimiter.acquire` called at instant `now`. -/
def RateLimiter.acquire (rl : RateLimiter) (now : ℚ) : RateLimiter × ℚ :=
  let tokens := min (rl.burst_size : ℚ) (rl.tokens + (now - rl.last_refill) * rl.rate)
  if 1 ≤ tokens then
    ({ rl with tokens := tokens - 1, last_refill := now }, 0)
  else
    ({ rl with tokens := 0, last_refill := now }, (1 - tokens) / rl.rate)

/-- State after `n` consecutive acquisitions, all at instant `now`. -/
def acquireIter (rl : RateLimiter) (now : ℚ) : ℕ → RateLimiter
  | 0 => rl
  | n + 1 => ((acquireIter rl now n).acquire now).1

/-- Sleep time reported by the `(n+1)`-th consecutive acquisition at `now`. -/
def acquireSleep (rl : RateLimiter) (now : ℚ) (n : ℕ) : ℚ :=
  ((acquireIter rl now n).acquire now).2

theorem acquireIter_full_bucket {r : ℚ} {b : ℕ} {t0 : ℚ} (hb : 1 ≤ b) :
    ∀ k, k ≤ b →
      acquireIter (RateLimiter.init r b t0) t0 k =
        { rate := r, burst_size := b, tokens := (b : ℚ) - k, last_refill := t0 } := by
  intro k
  induction k with
  | zero => intro; simp [acquireIter, RateLimiter.init]
  | succ k ih =>
    intro hk
    rw [acquireIter, ih (by omega), RateLimiter.acquire]
    have htok : min ((b : ℕ) : ℚ) (((b : ℚ) - k) + (t0 - t0) * r) = (b : ℚ) - k := by
      rw [min_eq_right]
      · ring_nf
      · have hk0 : (0 : ℚ) ≤ (k : ℚ) := Nat.cast_nonneg k
        linarith
    have hge : (1 : ℚ) ≤ min ((b : ℕ) : ℚ) (((b : ℚ) - k) + (t0 - t0) * r) := by
      rw [htok]
      have : (k : ℚ) + 1 ≤ (b : ℚ) := by
        have : (k + 1 : ℕ) ≤ b := hk
        exact_mod_cast this
      linarith
    dsimp only
    rw [if_pos hge, htok]
    simp only [RateLimiter.init]
    congr 1
    push_cast
    ring

theorem acquireSleep_no_block {r : ℚ} {b : ℕ} {t0 : ℚ} (hb : 1 ≤ b)
    {k : ℕ} (hk : k < b) :
    acquireSleep (RateLimiter.init r b t0) t0 k = 0 := by
  rw [acquireSleep, acquireIter_full_bucket hb k (by omega), RateLimiter.acquire]
  have htok : min ((b : ℕ) : ℚ) (((b : ℚ) - k) + (t0 - t0) * r) = (b : ℚ) - k := by
    rw [min_eq_right]
    · ring_nf
    · have hk0 : (0 : ℚ) ≤ (k : ℚ) := Nat.cast_nonneg k
      linarith
  have hge : (1 : ℚ) ≤ min ((b : ℕ) : ℚ) (((b : ℚ) - k) + (t0 - t0) * r) := by
    rw [htok]
    have : (k : ℚ) + 1 ≤ (b : ℚ) := by exact_mod_cast hk
    linarith
  dsimp only
  rw [if_pos hge]

theorem acquireSleep_block {r : ℚ} {b : ℕ} {t0 : ℚ} (hb : 1 ≤ b) :
    acquireSleep (RateLimiter.init r b t0) t0 b = 1 / r := by
  rw [acquireSleep, acquireIter_full_bucket hb b (le_refl b), RateLimiter.acquire]
  have htok : min ((b : ℕ) : ℚ) (((b : ℚ) - b) + (t0 - t0) * r) = 0 := by
    have hb0 : (0 : ℚ) ≤ (b : ℚ) := Nat.cast_nonneg b
    rw [min_eq_right]
    · ring_nf
    · linarith
  have hlt : ¬ (1 : ℚ) ≤ min ((b : ℕ) : ℚ) (((b : ℚ) - b) + (t0 - t0) * r) := by
    rw [htok]; norm_num
  dsimp only
  rw [if_neg hlt, htok]
  norm_num

/-! ### `grobid_client.Reference.calculate_quality_score` -/

/-- The structured reference produced by the GROBID backend. -/
structure Reference where
  title : List Char := []
  authors : List (List Char) := []
  journal : List Char := []
  venue : List Char := []
  year : List Char := []
  volume : List Char := []
  issue : List Char := []
  pages : List Char := []
  doi : List Char := []
  arxiv_id : List Char := []
  pmid : List Char := []
  raw_reference : List Char := []
deriving DecidableEq

/-- Python `str.isdigit` restricted to ASCII: non-empty and all digits. -/
def pyIsDigit (s : List Char) : Bool := decide (s ≠ []) && s.all Char.isDigit

/-- The running sum inside `calculate_quality_score`, before the final clip. -/
def qualityScoreSum (r : Reference) : ℚ :=
  let score : ℚ := 0
  let score := if r.title ≠ [] then
    score + (if r.title.length > 10 then 2/5 else 0) +
      (if r.title.length > 20 then 1/10 else 0)
    else score
  let score := if r.authors ≠ [] then score + 1/5 else score
  let score := if r.journal ≠ [] ∨ r.venue ≠ [] then score + 1/10 else score
  let score := if pyIsDigit r.year then score + 1/10 else score
  let score := if r.doi ≠ [] then score + 1/5 else score
  let score := if r.arxiv_id ≠ [] then score + 3/20 else score
  score

/-- `Reference.calculate_quality_score`: the clipped sum `min(1.0, score)`. -/
def calculate_quality_score (r : Reference) : ℚ := min 1 (qualityScoreSum r)

/-! ### `extractor._is_valid_reference` -/

/-- The fields of a post-processed record inspected by the validity filter. -/
structure ValRef where
  title : List Char := []
  raw_reference : List Char := []
  doi : List Char := []
deriving DecidableEq

/-- `^(acknowledgments?|references?|bibliography)$` with IGNORECASE. -/
def isSectionHeader (t : List Char) : Bool :=
  let l := t.map asciiLower
  l = str "acknowledgment" || l = str "acknowledgments" ||
  l = str "reference" || l = str "references" || l = str "bibliography"

/-- `^(table|figure|fig\.)\s*\d+` with IGNORECASE: an anchored prefix match. -/
def isCaption (t : List Char) : Bool :=
  let l := t.map asciiLower
  let tail :=
    if beginsWith (str "table") l then some (l.drop 5)
    else if beginsWith (str "figure") l then some (l.drop 6)
    else if beginsWith (str "fig.") l then some (l.drop 4)
    else none
  match tail with
  | some rest =>
    match (rest.dropWhile isPySpace).head? with
    | some c => c.isDigit
    | none => false
  | none => false

/-- `^\d+$`. -/
def isBareNumber (t : List Char) : Bool := decide (t ≠ []) && t.all Char.isDigit

/-- `^[a-z]$` with IGNORECASE. -/
def isSingleLetter (t : List Char) : Bool :=
  match t with
  | [c] => ('a' ≤ c && c ≤ 'z') || ('A' ≤ c && c ≤ 'Z')
  | _ => false

/-- The false-positive pattern list of `_is_valid_reference`. -/
def falsePositiveTitle (t : List Char) : Bool :=
  isSectionHeader t || isCaption t || isBareNumber t || isSingleLetter t

/-- `extractor._is_valid_reference`. -/
def is_valid_reference (minTitleLen : ℕ) (r : ValRef) : Bool :=
  let has_content :=
    (decide (pyStrip r.title ≠ []) && decide ((pyStrip r.title).length ≥ minTitleLen)) ||
    (decide (pyStrip r.raw_reference ≠ []) && decide ((pyStrip r.raw_reference).length ≥ 20)) ||
    decide (pyStrip r.doi ≠ [])
  if !has_content then false
  else
    let title := pyStrip r.title
    if title ≠ [] then !falsePositiveTitle title
    else true

/-! ### The per-citation boundary in `download_references_parallel` -/

/-- One iteration of the `as_completed` loop: `future.result()` either
returns a `ReferenceResult` or raises, and the `except` arm turns the
exception into a plain status line for that citation only. -/
def collectOne (index : ℕ) : Except (List Char) ReferenceResult → List Char
  | .ok r =>
    if r.status = str "success" then
      let source := match r.source with
        | some s => if s = [] then str "unknown" else s
        | none => str "unknown"
      str "✅ " ++ r.filename ++ str " (from " ++ source ++ str ")"
    else if r.status = str "exists" then
      str "📄 " ++ r.filename ++ str " (already exists)"
    else if r.status = str "error" then
      str "❌ " ++ r.filename ++ str " (error: " ++
        (r.error).getD [] ++ str ")"
    else
      str "❌ " ++ r.filename ++ str " (" ++
        ((r.error).getD (str "no source found")) ++ str ")"
  | .error e =>
    str "❌ ref_" ++ pad3 index ++ str " (processing error: " ++ e ++ str ")"

/-- The status lines produced by the collection loop, one per finished
citation task, in completion order. -/
def collectResults (tasks : List (ℕ × Except (List Char) ReferenceResult)) :
    List (List Char) :=
  tasks.map (fun p => collectOne p.1 p.2)

/-! ### Claim theorems -/

/-- C2: a citation whose computed target path already exists returns status
`exists` immediately with an empty `sources_tried` list, and the outcome is
independent of the handler and download oracles (no handler invocation, no
network activity); hence a re-run over an unchanged output directory reports
`exists` with zero attempts for every citation. -/
theorem C2_exists_short_circuit
    (enabled : List (List Char)) (maxLen : ℕ)
    (handler handler' : List Char → RefInfo → SourceResult)
    (download download' : List Char → Option (List Char))
    (existsFile : List Char → Bool) (ref : RawRef) (index : ℕ)
    (hex : existsFile (generate_filename maxLen (extract_reference_info ref) index) = true) :
    (process_reference enabled maxLen handler download existsFile ref index).status =
      str "exists" ∧
    (process_reference enabled maxLen handler download existsFile ref index).sources_tried = [] ∧
    process_reference enabled maxLen handler download existsFile ref index =
      process_reference enabled maxLen handler' download' existsFile ref index := by
  unfold process_reference
  dsimp only
  rw [hex]
  exact ⟨rfl, rfl, rfl⟩

def stubHandler : List Char → RefInfo → SourceResult :=
  fun n _ => { source_name := n, success := false }

def stubDownload : List Char → Option (List Char) := fun _ => none

def alwaysExists : List Char → Bool := fun _ => true

def neverExists : List Char → Bool := fun _ => false

theorem C2_witness :
    alwaysExists (generate_filename 150 (extract_reference_info {}) 1) = true ∧
    ((process_reference [] 150 stubHandler stubDownload alwaysExists {} 1).status =
      str "exists" ∧
    (process_reference [] 150 stubHandler stubDownload alwaysExists {} 1).sources_tried = [] ∧
    process_reference [] 150 stubHandler stubDownload alwaysExists {} 1 =
      process_reference [] 150 stubHandler stubDownload alwaysExists {} 1) :=
  ⟨rfl, C2_exists_short_circuit [] 150 stubHandler stubHandler stubDownload stubDownload
    alwaysExists {} 1 rfl⟩

/-- C5: the DOI field produced by `_clean_doi` — and hence the DOI of every
normalized record handed to the source handlers — is either empty or matches
`^10\.\d+/`, with any `doi.org` / `dx.doi.org` resolver prefix removed. -/
theorem C5_doi_invariant :
    (∀ d : List Char, clean_doi d = [] ∨
      (matchesDoiPattern (clean_doi d) = true ∧
       beginsWith (str "https://doi.org/") (clean_doi d) = false ∧
       beginsWith (str "https://dx.doi.org/") (clean_doi d) = false)) ∧
    (∀ ref : RawRef, (extract_reference_info ref).doi = [] ∨
      matchesDoiPattern ((extract_reference_info ref).doi) = true) := by
  constructor
  · intro d
    rcases clean_doi_empty_or_valid d with h | h
    · exact Or.inl h
    · rcases matchesDoiPattern_not_resolver h with ⟨h1, h2⟩
      exact Or.inr ⟨h, h1, h2⟩
  · intro ref
    exact clean_doi_empty_or_valid (fieldToStr ref.doi)

/-- C3: `acquire` refills elapsed×rate tokens capped at the burst size,
consumes one token without blocking when at least one is available, and
otherwise sleeps `(1 - tokens)/rate` and zeroes the bucket; consequently,
from a full bucket, `b` consecutive acquisitions with no time elapsed do not
block and the `(b+1)`-th blocks for at least `1/r` seconds. -/
theorem C3_rate_limiter (r : ℚ) (b : ℕ) (t0 : ℚ) (hb : 1 ≤ b) :
    (∀ (rl : RateLimiter) (now : ℚ),
      ((1 : ℚ) ≤ min (rl.burst_size : ℚ) (rl.tokens + (now - rl.last_refill) * rl.rate) →
        rl.acquire now =
          ({ rl with
              tokens := min (rl.burst_size : ℚ) (rl.tokens + (now - rl.last_refill) * rl.rate) - 1,
              last_refill := now }, 0)) ∧
      (min (rl.burst_size : ℚ) (rl.tokens + (now - rl.last_refill) * rl.rate) < 1 →
        rl.acquire now =
          ({ rl with tokens := 0, last_refill := now },
           (1 - min (rl.burst_size : ℚ) (rl.tokens + (now - rl.last_refill) * rl.rate)) / rl.rate))) ∧
    (∀ k, k < b → acquireSleep (RateLimiter.init r b t0) t0 k = 0) ∧
    1 / r ≤ acquireSleep (RateLimiter.init r b t0) t0 b := by
  refine ⟨?_, ?_, ?_⟩
  · intro rl now
    constructor
    · intro hge
      rw [RateLimiter.acquire]
      exact if_pos hge
    · intro hlt
      rw [RateLimiter.acquire]
      exact if_neg (not_le.mpr hlt)
  · intro k hk
    exact acquireSleep_no_block hb hk
  · exact le_of_eq (acquireSleep_block hb).symm

theorem C3_witness :
    (1 : ℕ) ≤ 3 ∧
    (acquireSleep (RateLimiter.init 2 3 0) 0 0 = 0 ∧
     acquireSleep (RateLimiter.init 2 3 0) 0 1 = 0 ∧
     acquireSleep (RateLimiter.init 2 3 0) 0 2 = 0 ∧
     1 / 2 ≤ acquireSleep (RateLimiter.init 2 3 0) 0 3) := by
  refine ⟨by norm_num, ?_, ?_, ?_, ?_⟩
  · exact (C3_rate_limiter 2 3 0 (by norm_num)).2.1 0 (by norm_num)
  · exact (C3_rate_limiter 2 3 0 (by norm_num)).2.1 1 (by norm_num)
  · exact (C3_rate_limiter 2 3 0 (by norm_num)).2.1 2 (by norm_num)
  · exact (C3_rate_limiter 2 3 0 (by norm_num)).2.2

/-- The acceptance condition as worded by the claim: title length at least
the configured minimum, or free text of length at least 20, or a non-empty
DOI (all on the stripped fields the code inspects). -/
def claimHasContent (minTitleLen : ℕ) (r : ValRef) : Prop :=
  (pyStrip r.title).length ≥ minTitleLen ∨
  (pyStrip r.raw_reference).length ≥ 20 ∨
  pyStrip r.doi ≠ []

theorem falsePositiveTitle_nil : falsePositiveTitle [] = false := by decide

/-- C6: for a positive configured minimum title length,
`_is_valid_reference` accepts a record iff (title long enough OR free text
at least 20 OR DOI present) AND the title matches no false-positive
pattern; in particular "References" is rejected, a DOI-only record is
accepted, and a 5-character title with nothing else is rejected. -/
theorem C6_validity_filter :
    (∀ (minLen : ℕ) (r : ValRef), 0 < minLen →
      (is_valid_reference minLen r = true ↔
        (claimHasContent minLen r ∧ falsePositiveTitle (pyStrip r.title) = false))) ∧
    is_valid_reference 10 { title := str "References" } = false ∧
    is_valid_reference 10 { doi := str "10.1000/xyz" } = true ∧
    is_valid_reference 10 { title := str "Hello" } = false := by
  refine ⟨?_, by decide, by decide, by decide⟩
  intro minLen r hmin
  have hlen1 : pyStrip r.title = [] → (pyStrip r.title).length = 0 := by
    intro h; rw [h]; rfl
  have hlen2 : pyStrip r.raw_reference = [] → (pyStrip r.raw_reference).length = 0 := by
    intro h; rw [h]; rfl
  have hpos1 : pyStrip r.title ≠ [] ↔ 0 < (pyStrip r.title).length :=
    ⟨fun h => List.length_pos.mpr h, fun h => List.length_pos.mp h⟩
  have hpos2 : pyStrip r.raw_reference ≠ [] ↔ 0 < (pyStrip r.raw_reference).length :=
    ⟨fun h => List.length_pos.mpr h, fun h => List.length_pos.mp h⟩
  unfold is_valid_reference claimHasContent
  by_cases h1 : pyStrip r.title = [] <;>
    by_cases h2 : (pyStrip r.title).length ≥ minLen <;>
    by_cases h3 : (pyStrip r.raw_reference).length ≥ 20 <;>
    by_cases h4 : pyStrip r.doi = [] <;>
    by_cases h5 : falsePositiveTitle (pyStrip r.title) = true <;>
    simp_all [falsePositiveTitle_nil] <;>
    omega

theorem C6_witness :
    0 < 10 ∧
    (is_valid_reference 10 { doi := str "10.1000/xyz" } = true ↔
      (claimHasContent 10 { doi := str "10.1000/xyz" } ∧
       falsePositiveTitle (pyStrip ({ doi := str "10.1000/xyz" } : ValRef).title) = false)) :=
  ⟨by decide, C6_validity_filter.1 10 { doi := str "10.1000/xyz" } (by decide)⟩

/-- The per-field sum exactly as the claim words it: title *presence*
contributes 0.4 (plus 0.1 when longer than 20), and a *valid* DOI
contributes 0.2. -/
def claimQualitySum (r : Reference) : ℚ :=
  (if r.title ≠ [] then 2/5 else 0) + (if r.title.length > 20 then 1/10 else 0) +
  (if r.authors ≠ [] then 1/5 else 0) +
  (if r.journal ≠ [] ∨ r.venue ≠ [] then 1/10 else 0) +
  (if pyIsDigit r.year then 1/10 else 0) +
  (if matchesDoiPattern r.doi then 1/5 else 0) +
  (if r.arxiv_id ≠ [] then 3/20 else 0)

/-- The claimed clipped score. -/
def claimQualityScore (r : Reference) : ℚ := min 1 (claimQualitySum r)

theorem quality_score_title_short :
    calculate_quality_score { title := str "Short" } = 0 := by
  unfold calculate_quality_score qualityScoreSum
  dsimp only
  rw [if_pos (show str "Short" ≠ [] by decide),
    if_neg (show ¬((str "Short").length > 10) by decide),
    if_neg (show ¬((str "Short").length > 20) by decide)]
  norm_num [pyIsDigit]

theorem claim_score_title_short :
    claimQualityScore { title := str "Short" } = 2/5 := by
  unfold claimQualityScore claimQualitySum
  dsimp only
  rw [if_pos (show str "Short" ≠ [] by decide),
    if_neg (show ¬((str "Short").length > 20) by decide)]
  norm_num [pyIsDigit, matchesDoiPattern]

theorem quality_score_junk_doi :
    calculate_quality_score { doi := str "junk" } = 1/5 := by
  unfold calculate_quality_score qualityScoreSum
  dsimp only
  rw [if_pos (show str "junk" ≠ [] by decide)]
  norm_num [pyIsDigit]

theorem claim_score_junk_doi :
    claimQualityScore { doi := str "junk" } = 0 := by
  unfold claimQualityScore claimQualitySum
  dsimp only
  rw [if_neg (show ¬(matchesDoiPattern (str "junk") = true) by decide)]
  norm_num [pyIsDigit]

/-- C7 fails on the code: a present title of length ≤ 10 contributes
nothing (the code requires `len > 10` for the 0.4), and the code awards 0.2
for any non-empty DOI, valid or not. -/
theorem C7_counterexample :
    calculate_quality_score { title := str "Short" } ≠
      claimQualityScore { title := str "Short" } ∧
    calculate_quality_score { doi := str "junk" } ≠
      claimQualityScore { doi := str "junk" } := by
  rw [quality_score_title_short, claim_score_title_short,
    quality_score_junk_doi, claim_score_junk_doi]
  norm_num

/-- The amended per-field sum: a title longer than 10 contributes 0.4
(plus 0.1 when longer than 20), and any non-empty DOI contributes 0.2. -/
def amendedQualitySum (r : Reference) : ℚ :=
  (if r.title.length > 10 then 2/5 else 0) + (if r.title.length > 20 then 1/10 else 0) +
  (if r.authors ≠ [] then 1/5 else 0) +
  (if r.journal ≠ [] ∨ r.venue ≠ [] then 1/10 else 0) +
  (if pyIsDigit r.year then 1/10 else 0) +
  (if r.doi ≠ [] then 1/5 else 0) +
  (if r.arxiv_id ≠ [] then 3/20 else 0)

/-- C7 (amended): `calculate_quality_score` is the clipped-to-1 sum in which
a title of length > 10 contributes 0.4, a title of length > 20 a further
0.1, any author 0.2, any journal or venue 0.1, a purely numeric year 0.1, a
non-empty DOI 0.2 and a preprint id 0.15. -/
theorem C7_amended_quality_formula (r : Reference) :
    calculate_quality_score r = min 1 (amendedQualitySum r) := by
  unfold calculate_quality_score qualityScoreSum amendedQualitySum
  dsimp only
  congr 1
  by_cases ht : r.title = []
  · simp only [ht]
    norm_num
    split_ifs <;> ring
  · simp only [if_pos ht]
    split_ifs <;> ring

theorem ite_add_mono {c : Prop} [Decidable c] {x y k : ℚ} (hxy : x ≤ y) (hk : 0 ≤ k) :
    (if c then x + k else x) ≤ (if c then y + k else y) := by
  split_ifs <;> linarith

theorem ite_add_mono_ne {c c' : Prop} [Decidable c] [Decidable c'] {x y k : ℚ}
    (hxy : x ≤ y) (hk : 0 ≤ k) (hc : ¬c) :
    (if c then x + k else x) ≤ (if c' then y + k else y) := by
  split_ifs <;> linarith

/-- C8: the quality score always lies in [0, 1], and adding any qualifying
field (title, author, venue, numeric year, DOI, preprint id) to a record
that lacked it never decreases the score. -/
theorem C8_quality_bounds_monotone :
    (∀ r : Reference, 0 ≤ calculate_quality_score r ∧ calculate_quality_score r ≤ 1) ∧
    (∀ (r : Reference) (v : List Char), r.title = [] →
      calculate_quality_score r ≤ calculate_quality_score { r with title := v }) ∧
    (∀ (r : Reference) (a : List Char), r.authors = [] →
      calculate_quality_score r ≤ calculate_quality_score { r with authors := [a] }) ∧
    (∀ (r : Reference) (v : List Char), r.venue = [] → r.journal = [] →
      calculate_quality_score r ≤ calculate_quality_score { r with venue := v }) ∧
    (∀ (r : Reference) (y : List Char), r.year = [] → pyIsDigit y = true →
      calculate_quality_score r ≤ calculate_quality_score { r with year := y }) ∧
    (∀ (r : Reference) (d : List Char), r.doi = [] →
      calculate_quality_score r ≤ calculate_quality_score { r with doi := d }) ∧
    (∀ (r : Reference) (a : List Char), r.arxiv_id = [] →
      calculate_quality_score r ≤ calculate_quality_score { r with arxiv_id := a }) := by
  have hsum0 : ∀ r : Reference, 0 ≤ qualityScoreSum r := by
    intro r
    unfold qualityScoreSum
    dsimp only
    split_ifs <;> norm_num
  refine ⟨?_, ?_, ?_, ?_, ?_, ?_, ?_⟩
  · intro r
    unfold calculate_quality_score
    exact ⟨le_min (by norm_num) (hsum0 r), min_le_left 1 _⟩
  · intro r v h
    refine min_le_min (le_refl 1) ?_
    unfold qualityScoreSum
    dsimp only
    refine ite_add_mono (ite_add_mono (ite_add_mono (ite_add_mono (ite_add_mono
      ?_ (by norm_num)) (by norm_num)) (by norm_num)) (by norm_num)) (by norm_num)
    rw [if_neg (by simp [h])]
    split_ifs <;> norm_num
  · intro r a h
    refine min_le_min (le_refl 1) ?_
    unfold qualityScoreSum
    dsimp only
    refine ite_add_mono (ite_add_mono (ite_add_mono (ite_add_mono
      (ite_add_mono_ne (le_refl _) (by norm_num) (by simp [h]))
      (by norm_num)) (by norm_num)) (by norm_num)) (by norm_num)
  · intro r v h h'
    refine min_le_min (le_refl 1) ?_
    unfold qualityScoreSum
    dsimp only
    refine ite_add_mono (ite_add_mono (ite_add_mono
      (ite_add_mono_ne (le_refl _) (by norm_num) (by simp [h, h']))
      (by norm_num)) (by norm_num)) (by norm_num)
  · intro r y h h'
    refine min_le_min (le_refl 1) ?_
    unfold qualityScoreSum
    dsimp only
    refine ite_add_mono (ite_add_mono
      (ite_add_mono_ne (le_refl _) (by norm_num)
        (by rw [h]; simp [pyIsDigit]))
      (by norm_num)) (by norm_num)
  · intro r d h
    refine min_le_min (le_refl 1) ?_
    unfold qualityScoreSum
    dsimp only
    refine ite_add_mono
      (ite_add_mono_ne (le_refl _) (by norm_num) (by simp [h]))
      (by norm_num)
  · intro r a h
    refine min_le_min (le_refl 1) ?_
    unfold qualityScoreSum
    dsimp only
    exact ite_add_mono_ne (le_refl _) (by norm_num) (by simp [h])

theorem C8_witness :
    (0 ≤ calculate_quality_score {} ∧ calculate_quality_score {} ≤ 1) ∧
    ({} : Reference).title = [] ∧
    calculate_quality_score {} ≤
      calculate_quality_score { ({} : Reference) with title := str "A Longer Title" } ∧
    ({} : Reference).doi = [] ∧
    calculate_quality_score {} ≤
      calculate_quality_score { ({} : Reference) with doi := str "10.1/x" } :=
  ⟨C8_quality_bounds_monotone.1 {},
   rfl, C8_quality_bounds_monotone.2.1 {} (str "A Longer Title") rfl,
   rfl, C8_quality_bounds_monotone.2.2.2.2.2.1 {} (str "10.1/x") rfl⟩

/-- C9 (against the code): the per-citation boundary in
`download_references_parallel` does catch an exception raised by one
citation's task and turns it into a status line for that citation only
(changing one task changes only that citation's line), but no
`ReferenceResult` produced by `process_reference` ever carries status
`error` — the only statuses it assigns are `exists`, `success` and
`failed`, so the claimed `error` outcome is unreachable dead code. -/
theorem C9_exception_boundary :
    (∀ (enabled : List (List Char)) (maxLen : ℕ)
        (handler : List Char → RefInfo → SourceResult)
        (download : List Char → Option (List Char))
        (existsFile : List Char → Bool) (ref : RawRef) (index : ℕ),
      (process_reference enabled maxLen handler download existsFile ref index).status =
          str "exists" ∨
      (process_reference enabled maxLen handler download existsFile ref index).status =
          str "success" ∨
      (process_reference enabled maxLen handler download existsFile ref index).status =
          str "failed") ∧
    (∀ (i : ℕ) (e : List Char),
      collectOne i (.error e) =
        str "❌ ref_" ++ pad3 i ++ str " (processing error: " ++ e ++ str ")") ∧
    (∀ (tasks : List (ℕ × Except (List Char) ReferenceResult)) (j : ℕ)
        (t : ℕ × Except (List Char) ReferenceResult),
      collectResults (tasks.set j t) =
        (collectResults tasks).set j (collectOne t.1 t.2)) := by
  refine ⟨?_, ?_, ?_⟩
  · intro enabled maxLen handler download existsFile ref index
    unfold process_reference
    dsimp only
    split
    · exact Or.inl rfl
    · split
      · exact Or.inr (Or.inl rfl)
      · exact Or.inr (Or.inr rfl)
  · intro i e
    rfl
  · intro tasks j t
    unfold collectResults
    exact List.map_set

/-- The names actually consulted by `process_reference`: the enabled APIs in
priority order, restricted to the registered handler names. -/
def consultedApis (apiCfgs : List (List Char × APIConfig)) : List (List Char) :=
  ((get_enabled_apis apiCfgs).map Prod.fst).filter (fun a => handlerNames.contains a)

/-- The per-citation view of the handler oracle. -/
def citationHandler (handler : List Char → RefInfo → SourceResult) (ref : RawRef) :
    List Char → SourceResult :=
  fun api => handler api (extract_reference_info ref)

theorem recordedAttempt_not_resolves_success
    {handler : List Char → SourceResult} {download : List Char → Option (List Char)}
    {api : List Char}
    (hwf : (handler api).success = true → truthy (handler api).url = true)
    (h : ¬ resolves handler download api) :
    (recordedAttempt handler download api).success = false := by
  rw [recordedAttempt]
  cases hsuc : (handler api).success with
  | false => simp [hsuc]
  | true =>
    have ht := hwf hsuc
    cases hu : (handler api).url with
    | none => rw [hu] at ht; simp [truthy] at ht
    | some u =>
      have hne : u ≠ [] := by rw [hu] at ht; simpa [truthy] using ht
      cases hdl : download u with
      | none => exact absurd ⟨u, hu, hne, hsuc, hdl⟩ h
      | some e => simp [hsuc, hu, truthy, hne, hdl]

/-- C1: with pairwise-distinct priorities on the enabled APIs, the consulted
handler list is strictly ascending in configured priority, and when the
first `k` consulted handlers fail to produce a validated download while the
`(k+1)`-th succeeds, the outcome has status `success`, records that
handler's name and URL, its `sources_tried` are exactly the `k` failed
attempts followed by the successful one, and no later handler is consulted
(exactly `k+1` attempts are recorded). -/
theorem C1_fallback_priority_order
    (apiCfgs : List (List Char × APIConfig)) (maxLen : ℕ)
    (handler : List Char → RefInfo → SourceResult)
    (download : List Char → Option (List Char))
    (existsFile : List Char → Bool) (ref : RawRef) (index k : ℕ)
    (hdist : (apiCfgs.filter (fun p => p.2.enabled)).Pairwise
      (fun a b => a.2.priority ≠ b.2.priority))
    (hex : existsFile (generate_filename maxLen (extract_reference_info ref) index) = false)
    (hwf : ∀ api ∈ consultedApis apiCfgs,
      (citationHandler handler ref api).success = true →
      truthy (citationHandler handler ref api).url = true)
    (hk : k < (consultedApis apiCfgs).length)
    (hfail : ∀ j (hj : j < k),
      ¬ resolves (citationHandler handler ref) download
        ((consultedApis apiCfgs).get ⟨j, lt_trans hj hk⟩))
    (hsucc : resolves (citationHandler handler ref) download
      ((consultedApis apiCfgs).get ⟨k, hk⟩)) :
    ((get_enabled_apis apiCfgs).filter (fun p => handlerNames.contains p.1)).Pairwise
      (fun a b => a.2.priority < b.2.priority) ∧
    (let res := process_reference ((get_enabled_apis apiCfgs).map Prod.fst) maxLen
        handler download existsFile ref index
     res.status = str "success" ∧
     res.source = some ((consultedApis apiCfgs).get ⟨k, hk⟩) ∧
     res.url = (citationHandler handler ref ((consultedApis apiCfgs).get ⟨k, hk⟩)).url ∧
     res.sources_tried =
       ((consultedApis apiCfgs).take k).map
         (recordedAttempt (citationHandler handler ref) download) ++
       [citationHandler handler ref ((consultedApis apiCfgs).get ⟨k, hk⟩)] ∧
     res.sources_tried.length = k + 1 ∧
     (∀ a ∈ res.sources_tried.take k, a.success = false) ∧
     (citationHandler handler ref ((consultedApis apiCfgs).get ⟨k, hk⟩)).success = true) := by
  have hasc : ((get_enabled_apis apiCfgs).filter
      (fun p => handlerNames.contains p.1)).Pairwise
      (fun a b => a.2.priority < b.2.priority) :=
    (get_enabled_apis_strict_ascending hdist).sublist (List.filter_sublist _)
  obtain ⟨u, hu, hune, husucc, hudl⟩ := hsucc
  have hmain := trySources_first_success (citationHandler handler ref) download
    (consultedApis apiCfgs) k hk hfail ⟨u, hu, hune, husucc, hudl⟩
  have hmain' : trySources (fun api => handler api (extract_reference_info ref)) download
      (((get_enabled_apis apiCfgs).map Prod.fst).filter (fun a => handlerNames.contains a)) =
      (((consultedApis apiCfgs).take k).map
         (recordedAttempt (citationHandler handler ref) download) ++
       [citationHandler handler ref ((consultedApis apiCfgs).get ⟨k, hk⟩)],
       some ((consultedApis apiCfgs).get ⟨k, hk⟩,
         ((citationHandler handler ref ((consultedApis apiCfgs).get ⟨k, hk⟩)).url).getD [])) :=
    hmain
  have hres : process_reference ((get_enabled_apis apiCfgs).map Prod.fst) maxLen
      handler download existsFile ref index =
      { filename := generate_filename maxLen (extract_reference_info ref) index,
        status := str "success",
        source := some ((consultedApis apiCfgs).get ⟨k, hk⟩),
        url := some (((citationHandler handler ref
          ((consultedApis apiCfgs).get ⟨k, hk⟩)).url).getD []),
        sources_tried :=
          ((consultedApis apiCfgs).take k).map
            (recordedAttempt (citationHandler handler ref) download) ++
          [citationHandler handler ref ((consultedApis apiCfgs).get ⟨k, hk⟩)],
        reference_info := extract_reference_info ref } := by
    unfold process_reference
    dsimp only
    rw [hex]
    simp only [Bool.false_eq_true, if_false]
    rw [hmain']
  refine ⟨hasc, ?_⟩
  dsimp only
  rw [hres]
  refine ⟨rfl, rfl, ?_, rfl, ?_, ?_, husucc⟩
  · rw [hu]
    rfl
  · simp only [List.length_append, List.length_map, List.length_take, List.length_cons,
      List.length_nil]
    omega
  · intro a ha
    have hsub : ((((consultedApis apiCfgs).take k).map
        (recordedAttempt (citationHandler handler ref) download)) ++
        [citationHandler handler ref ((consultedApis apiCfgs).get ⟨k, hk⟩)]).take k =
        ((consultedApis apiCfgs).take k).map
          (recordedAttempt (citationHandler handler ref) download) := by
      rw [List.take_append_of_le_length]
      · rw [List.take_of_length_le]
        simp only [List.length_map, List.length_take]
        omega
      · simp only [List.length_map, List.length_take]
        omega
    rw [hsub] at ha
    obtain ⟨api, hmem, rfl⟩ := List.mem_map.mp ha
    obtain ⟨j, hj, hget⟩ := List.getElem_of_mem hmem
    have hjk : j < k := by
      have := hj
      simp only [List.length_take] at this
      omega
    have hjl : j < (consultedApis apiCfgs).length := lt_trans hjk hk
    have hget' : (consultedApis apiCfgs)[j] = api := by
      rw [← hget, List.getElem_take]
    have hnr := hfail j hjk
    have hmem' : api ∈ consultedApis apiCfgs := by
      rw [← hget']
      exact List.getElem_mem hjl
    refine recordedAttempt_not_resolves_success (hwf api hmem') ?_
    have hge : (consultedApis apiCfgs).get ⟨j, lt_trans hjk hk⟩ = api := hget'
    rwa [hge] at hnr

/-- Stub handlers for the fallback-order witness: arxiv fails, unpaywall
succeeds with a concrete URL, everything else fails. -/
def wHandler : List Char → RefInfo → SourceResult := fun api _ =>
  if api = str "unpaywall" then
    { source_name := api, success := true, url := some (str "http://example.org/x.pdf") }
  else
    { source_name := api, success := false, error := some (str "not found") }

def wDownload : List Char → Option (List Char) := fun _ => none

theorem C1_witness :
    ((defaultApis.filter (fun p => p.2.enabled)).Pairwise
      (fun a b => a.2.priority ≠ b.2.priority)) ∧
    (neverExists (generate_filename 150 (extract_reference_info {}) 1) = false) ∧
    (∀ api ∈ consultedApis defaultApis,
      (citationHandler wHandler {} api).success = true →
      truthy (citationHandler wHandler {} api).url = true) ∧
    (1 < (consultedApis defaultApis).length) ∧
    (((get_enabled_apis defaultApis).filter (fun p => handlerNames.contains p.1)).Pairwise
      (fun a b => a.2.priority < b.2.priority) ∧
     (let res := process_reference ((get_enabled_apis defaultApis).map Prod.fst) 150
        wHandler wDownload neverExists {} 1
      res.status = str "success" ∧
      res.source = some ((consultedApis defaultApis).get
        ⟨1, by decide⟩) ∧
      res.url = (citationHandler wHandler {} ((consultedApis defaultApis).get
        ⟨1, by decide⟩)).url ∧
      res.sources_tried =
        ((consultedApis defaultApis).take 1).map
          (recordedAttempt (citationHandler wHandler {}) wDownload) ++
        [citationHandler wHandler {} ((consultedApis defaultApis).get ⟨1, by decide⟩)] ∧
      res.sources_tried.length = 1 + 1 ∧
      (∀ a ∈ res.sources_tried.take 1, a.success = false) ∧
      (citationHandler wHandler {} ((consultedApis defaultApis).get
        ⟨1, by decide⟩)).success = true)) :=
  ⟨by decide, rfl, by decide, by decide,
   C1_fallback_priority_order defaultApis 150 wHandler wDownload neverExists {} 1 1
     (by decide) rfl (by decide) (by decide)
     (by decide) (by decide)⟩

/-- Evaluate `_generate_filename` on a record whose only text is
`raw_reference`. -/
theorem gf_eval_raw (maxLen : ℕ) (v : List Char) (hv : v ≠ []) (i : ℕ) :
    generate_filename maxLen { raw_reference := v } i =
      fitFilename maxLen i
        ((collapseWs (pyStrip (v.filter (fun c => !badFilenameChar c)))).take 60)
        (fileHash { raw_reference := v } i) := by
  unfold generate_filename
  dsimp only
  rw [if_neg (show ¬(([] : List Char) ≠ []) from by simp), if_pos hv]

/-- Evaluate `_generate_filename` on a record whose only text is `title`. -/
theorem gf_eval_title (maxLen : ℕ) (v : List Char) (hv : v ≠ []) (i : ℕ) :
    generate_filename maxLen { title := v } i =
      fitFilename maxLen i
        ((collapseWs (pyStrip (v.filter (fun c => !badFilenameChar c)))).take 60)
        (fileHash { title := v } i) := by
  unfold generate_filename
  dsimp only
  rw [if_pos hv, if_pos hv]

theorem fitFilename_no_trunc {maxLen i : ℕ} {ct fh : List Char}
    (h : ¬ (composeFilename i ct fh).length > maxLen) :
    fitFilename maxLen i ct fh = composeFilename i ct fh := by
  unfold fitFilename
  dsimp only
  rw [if_neg h]

/-- C4 fails on the code: two records that agree on title, DOI, preprint id
and index but differ in `raw_reference` receive different filenames, because
an empty title falls back to `raw_reference` for the name segment. -/
theorem C4_counterexample :
    ({ raw_reference := str "Alpha" } : RefInfo).title =
      ({ raw_reference := str "Beta" } : RefInfo).title ∧
    ({ raw_reference := str "Alpha" } : RefInfo).doi =
      ({ raw_reference := str "Beta" } : RefInfo).doi ∧
    ({ raw_reference := str "Alpha" } : RefInfo).arxiv_id =
      ({ raw_reference := str "Beta" } : RefInfo).arxiv_id ∧
    generate_filename 150 { raw_reference := str "Alpha" } 1 ≠
      generate_filename 150 { raw_reference := str "Beta" } 1 := by
  refine ⟨rfl, rfl, rfl, ?_⟩
  have hA : generate_filename 150 { raw_reference := str "Alpha" } 1 =
      composeFilename 1 (str "Alpha") (fileHash { raw_reference := str "Alpha" } 1) := by
    rw [gf_eval_raw 150 (str "Alpha") (by decide) 1]
    rw [show (collapseWs (pyStrip ((str "Alpha").filter
      (fun c => !badFilenameChar c)))).take 60 = str "Alpha" from by decide]
    refine fitFilename_no_trunc ?_
    rw [composeFilename_length, fileHash_length, pad3_length_of_le (by norm_num)]
    decide
  have hB : generate_filename 150 { raw_reference := str "Beta" } 1 =
      composeFilename 1 (str "Beta") (fileHash { raw_reference := str "Beta" } 1) := by
    rw [gf_eval_raw 150 (str "Beta") (by decide) 1]
    rw [show (collapseWs (pyStrip ((str "Beta").filter
      (fun c => !badFilenameChar c)))).take 60 = str "Beta" from by decide]
    refine fitFilename_no_trunc ?_
    rw [composeFilename_length, fileHash_length, pad3_length_of_le (by norm_num)]
    decide
  rw [hA, hB]
  intro h
  have hlen := congrArg List.length h
  rw [composeFilename_length, composeFilename_length, fileHash_length, fileHash_length,
    show (str "Alpha").length = 5 from rfl, show (str "Beta").length = 4 from rfl] at hlen
  omega

theorem append_digit_boundary :
    ∀ (a b x y : List Char), (∀ c ∈ a, c.isDigit = true) →
      (∀ c ∈ b, c.isDigit = true) →
      a ++ '_' :: x = b ++ '_' :: y → a = b := by
  intro a
  induction a with
  | nil =>
    intro b x y _ hb h
    rw [List.nil_append] at h
    cases b with
    | nil => rfl
    | cons d b' =>
      rw [List.cons_append] at h
      injection h with h1 h2
      have hd := hb d (List.mem_cons_self d b')
      rw [← h1] at hd
      exact absurd hd (by decide)
  | cons c a' ih =>
    intro b x y ha hb h
    cases b with
    | nil =>
      rw [List.nil_append, List.cons_append] at h
      injection h with h1 h2
      have hc := ha c (List.mem_cons_self c a')
      rw [h1] at hc
      exact absurd hc (by decide)
    | cons d b' =>
      rw [List.cons_append, List.cons_append] at h
      injection h with h1 h2
      subst h1
      rw [ih b' x y (fun z hz => ha z (List.mem_cons_of_mem c hz))
        (fun z hz => hb z (List.mem_cons_of_mem c hz)) h2]

/-- C4 (amended): records that agree on title, DOI, preprint id *and
raw_reference* receive identical filenames at the same index, and changing
only the index always changes the filename. -/
theorem C4_amended_filename_determinism :
    (∀ (a b : RefInfo) (maxLen i : ℕ), a.title = b.title → a.doi = b.doi →
      a.arxiv_id = b.arxiv_id → a.raw_reference = b.raw_reference →
      generate_filename maxLen a i = generate_filename maxLen b i) ∧
    (∀ (info : RefInfo) (maxLen i j : ℕ), i ≠ j →
      generate_filename maxLen info i ≠ generate_filename maxLen info j) := by
  constructor
  · intro a b maxLen i h1 h2 h3 h4
    unfold generate_filename fileHash
    rw [h1, h2, h3, h4]
  · intro info maxLen i j hij heq
    obtain ⟨t1, h1⟩ := generate_filename_shape maxLen info i
    obtain ⟨t2, h2⟩ := generate_filename_shape maxLen info j
    rw [h1, h2] at heq
    unfold composeFilename at heq
    simp only [List.append_assoc, List.cons_append] at heq
    have heq' := List.append_cancel_left heq
    exact hij (pad3_injective (append_digit_boundary (pad3 i) (pad3 j) _ _
      (pad3_all_digit i) (pad3_all_digit j) heq'))

theorem C4_witness :
    (({ title := str "T", journal := str "J1" } : RefInfo).title =
      ({ title := str "T", journal := str "J2" } : RefInfo).title ∧
     ({ title := str "T", journal := str "J1" } : RefInfo).doi =
      ({ title := str "T", journal := str "J2" } : RefInfo).doi ∧
     ({ title := str "T", journal := str "J1" } : RefInfo).arxiv_id =
      ({ title := str "T", journal := str "J2" } : RefInfo).arxiv_id ∧
     ({ title := str "T", journal := str "J1" } : RefInfo).raw_reference =
      ({ title := str "T", journal := str "J2" } : RefInfo).raw_reference) ∧
    generate_filename 150 { title := str "T", journal := str "J1" } 1 =
      generate_filename 150 { title := str "T", journal := str "J2" } 1 ∧
    (1 : ℕ) ≠ 2 ∧
    generate_filename 150 { title := str "T", journal := str "J1" } 1 ≠
      generate_filename 150 { title := str "T", journal := str "J1" } 2 :=
  ⟨⟨rfl, rfl, rfl, rfl⟩,
   C4_amended_filename_determinism.1 _ _ 150 1 rfl rfl rfl rfl,
   by decide,
   C4_amended_filename_determinism.2 _ 150 1 2 (by decide)⟩

theorem templ_length {i : ℕ} (h999 : i ≤ 999) {fh : List Char} (hfh : fh.length = 8) :
    (str "ref_" ++ pad3 i ++ str "___" ++ fh ++ str ".pdf").length = 22 := by
  have h1 : (str "ref_").length = 4 := rfl
  have h2 : (str ".pdf").length = 4 := rfl
  have h3 : (str "___").length = 3 := rfl
  simp [List.length_append, h1, h2, h3, pad3_length_of_le h999, hfh]

/-- C10: for indices 1..999 the filename always starts with
`ref_{index:03d}_`, ends with an 8-hex-character hash followed by `.pdf`,
and is never longer than `max(max_filename_length, 31)`; and because the
title segment is never cut below 10 characters, a maximum configured below
31 can be exceeded. -/
theorem C10_filename_structure :
    (∀ (info : RefInfo) (maxLen i : ℕ), 1 ≤ i → i ≤ 999 →
      (∃ rest, generate_filename maxLen info i = str "ref_" ++ pad3 i ++ '_' :: rest) ∧
      (∃ pre h8, generate_filename maxLen info i = pre ++ h8 ++ str ".pdf" ∧
        h8.length = 8 ∧ ∀ c ∈ h8, isHexChar c = true) ∧
      (generate_filename maxLen info i).length ≤ max maxLen 31) ∧
    (∃ (info : RefInfo) (maxLen i : ℕ), maxLen < 31 ∧
      maxLen < (generate_filename maxLen info i).length) := by
  constructor
  · intro info maxLen i h1 h999
    obtain ⟨t, ht⟩ := generate_filename_shape maxLen info i
    refine ⟨⟨t ++ '_' :: (fileHash info i ++ str ".pdf"), ?_⟩,
            ⟨str "ref_" ++ pad3 i ++ '_' :: (t ++ ['_']), fileHash info i, ?_,
             fileHash_length info i, fileHash_all_hex info i⟩,
            generate_filename_length info h999⟩
    · rw [ht]
      unfold composeFilename
      simp [List.append_assoc]
    · rw [ht]
      unfold composeFilename
      simp [List.append_assoc]
  · refine ⟨{ title := str "AAAAAAAAAAAAAAAAAAAAAAAAAAAAAAAAAAAAAAAA" }, 20, 1, by norm_num, ?_⟩
    rw [gf_eval_title 20 (str "AAAAAAAAAAAAAAAAAAAAAAAAAAAAAAAAAAAAAAAA") (by decide) 1]
    rw [show (collapseWs (pyStrip ((str "AAAAAAAAAAAAAAAAAAAAAAAAAAAAAAAAAAAAAAAA").filter
      (fun c => !badFilenameChar c)))).take 60 =
      str "AAAAAAAAAAAAAAAAAAAAAAAAAAAAAAAAAAAAAAAA" from by decide]
    unfold fitFilename
    dsimp only
    rw [if_pos (by
      rw [composeFilename_length, fileHash_length, pad3_length_of_le (by norm_num)]
      decide)]
    have hfh : (fileHash { title := str "AAAAAAAAAAAAAAAAAAAAAAAAAAAAAAAAAAAAAAAA" } 1).length = 8 :=
      fileHash_length _ 1
    rw [composeFilename_length, hfh, pad3_length_of_le (by norm_num),
      List.length_take, templ_length (by norm_num) hfh]
    decide

theorem C10_witness :
    ((1 : ℕ) ≤ 1 ∧ (1 : ℕ) ≤ 999) ∧
    ((∃ rest, generate_filename 150 ({} : RefInfo) 1 = str "ref_" ++ pad3 1 ++ '_' :: rest) ∧
     (∃ pre h8, generate_filename 150 ({} : RefInfo) 1 = pre ++ h8 ++ str ".pdf" ∧
       h8.length = 8 ∧ ∀ c ∈ h8, isHexChar c = true) ∧
     (generate_filename 150 ({} : RefInfo) 1).length ≤ max 150 31) :=
  ⟨⟨le_refl 1, by norm_num⟩,
   C10_filename_structure.1 {} 150 1 (le_refl 1) (by norm_num)⟩

end BibP



